import Mathlib

/-!
Shallow embedding of `src/sleep_database.py` (class `SleepDatabase`).

The store is PostgreSQL: the table `driver` has a single column
`driver_asleep TIMESTAMP PRIMARY KEY` (`create_table`).  We model the
table contents as a `List Timestamp` in insertion order.  The matplotlib
rendering calls are modelled by small output datatypes recording exactly
what the code would draw; SQL query results are modelled from the query
text following PostgreSQL semantics.
-/

namespace DriveGuard

/-- A timestamp value (date + time of day, no timezone), as stored in the
`driver_asleep TIMESTAMP` column.  Only the hour component is ever used by
the analysis code (`EXTRACT(HOUR FROM ...)` / `df['timestamp'].dt.hour`),
but equality of full timestamps matters for the primary key. -/
structure Timestamp where
  date : Nat
  hour : Fin 24
  minute : Fin 60
deriving DecidableEq, Repr

/-- Error raised by the store on a primary-key violation
(psycopg2 `UniqueViolation`). -/
inductive InsertError where
  | uniqueViolation
deriving DecidableEq, Repr

/-- `take_sleep_timestamp` (lines 51-64): the Python method has no
caller-facing parameter; the stored value is `datetime.now()`, which we
model as the explicit ambient-clock argument `now`.  Because
`driver_asleep` is the table's `PRIMARY KEY`, inserting a timestamp equal
to one already stored raises a unique violation and the failed statement
leaves the table unchanged; otherwise the row is appended and committed. -/
def take_sleep_timestamp (now : Timestamp) (db : List Timestamp) :
    Except InsertError (List Timestamp) :=
  if now ∈ db then .error .uniqueViolation else .ok (db ++ [now])

/-- Sequential calls of `take_sleep_timestamp` at the successive clock
values `nows`, stopping at the first unique violation. -/
def insertAll (nows : List Timestamp) (db : List Timestamp) :
    Except InsertError (List Timestamp) :=
  nows.foldlM (fun d t => take_sleep_timestamp t d) db

/-- Number of stored events whose hour component is `h`
(`COUNT(*) ... GROUP BY sleep_hour`, resp. `value_counts` on `dt.hour`). -/
def hourCount (events : List Timestamp) (h : Fin 24) : Nat :=
  events.countP (fun e => e.hour == h)

/-- The hour histogram built in `plot_sleep_trend` (lines 133-145):
a `Series` of 24 counts indexed 0..23, zero-filled for absent hours and
updated with the `value_counts` of the hour column. -/
def histogram (events : List Timestamp) : List Nat :=
  (List.finRange 24).map (fun h => hourCount events h)

theorem hourCount_cons (e : Timestamp) (es : List Timestamp) (h : Fin 24) :
    hourCount (e :: es) h = hourCount es h + (if e.hour = h then 1 else 0) := by
  simp [hourCount, List.countP_cons]

theorem histogram_length (events : List Timestamp) :
    (histogram events).length = 24 := by
  simp [histogram]

theorem histogram_getElem (events : List Timestamp) (h : Fin 24) :
    (histogram events)[h.val]? = some (hourCount events h) := by
  have hlt : h.val < (histogram events).length := by
    simp [histogram_length]
  rw [List.getElem?_eq_getElem hlt]
  simp [histogram]

theorem histogram_sum (events : List Timestamp) :
    (histogram events).sum = events.length := by
  have key : ∀ l : List Timestamp, (∑ h : Fin 24, hourCount l h) = l.length := by
    intro l
    induction l with
    | nil => simp [hourCount]
    | cons e es ih =>
        have : (∑ h : Fin 24, hourCount (e :: es) h)
            = (∑ h : Fin 24, hourCount es h)
              + (∑ h : Fin 24, if e.hour = h then 1 else 0) := by
          rw [← Finset.sum_add_distrib]
          exact Finset.sum_congr rfl (fun h _ => hourCount_cons e es h)
        rw [this, ih, Finset.sum_ite_eq]
        simp
  calc (histogram events).sum
      = ∑ h : Fin 24, hourCount events h := by
        rw [Fin.sum_univ_def]; rfl
    _ = events.length := key events

/-- Possible results of `fetchone` after the query in
`most_common_sleep_hour` (lines 76-82):
`SELECT EXTRACT(HOUR ...) AS sleep_hour, COUNT(*) AS frequency ... GROUP BY
sleep_hour ORDER BY frequency DESC LIMIT 1`.  A group exists for each hour
with at least one event; `ORDER BY frequency DESC` fixes no order among
rows with equal frequency, so the fetched row can be any group whose count
is maximal.  The list below collects exactly those possible rows
(empty iff the table is empty). -/
def modeRows (events : List Timestamp) : List (Fin 24 × Nat) :=
  (List.finRange 24).filterMap (fun h =>
    if 1 ≤ hourCount events h ∧ ∀ h', hourCount events h' ≤ hourCount events h
    then some (h, hourCount events h) else none)

/-- What the matplotlib window of `most_common_sleep_hour` displays:
either the "no data" panel or the mode panel with an hour and a
frequency. -/
inductive ModeOutput where
  | noRecords
  | modeShown (hour : Fin 24) (freq : Nat)
deriving DecidableEq, Repr

/-- The text drawn on the mode panel (lines 91-94 and 103-104). -/
def renderMode : ModeOutput → String
  | .noRecords => "No sleep records found"
  | .modeShown h c =>
      (if h.val < 10 then "Most Common Sleep Hour: 0" ++ toString h.val
       else "Most Common Sleep Hour: " ++ toString h.val)
      ++ ":00 / Frequency: " ++ toString c ++ " occurrences"

/-- `most_common_sleep_hour` (lines 68-109): fetch the top row of the
grouped query; if a row came back, show its hour and frequency, otherwise
show the "No sleep records found" panel.  Because the query's tie order is
unspecified, the result is the list of possible outputs (singleton
whenever no tie, or no data). -/
def most_common_sleep_hour (events : List Timestamp) : List ModeOutput :=
  if modeRows events = [] then [ModeOutput.noRecords]
  else (modeRows events).map (fun r => ModeOutput.modeShown r.1 r.2)

/-- Number of distinct hours having at least one event: the length of
`sleep_counts = df['hour'].value_counts()` in `plot_sleep_trend`. -/
def distinctHours (events : List Timestamp) : Nat :=
  ((List.finRange 24).filter (fun h => 1 ≤ hourCount events h)).length

/-- Exact ordinary-least-squares fit of degree 1 over the points
`(i, ys[i])`, `i = 0 .. ys.length - 1`: the mathematical content of
`np.polyfit(x_hours, y, 1)` (line 153).  Returns `(slope, intercept)`. -/
def polyfit1 (ys : List ℚ) : ℚ × ℚ :=
  let n : ℚ := ys.length
  let xs : List ℚ := (List.range ys.length).map (fun i : Nat => (i : ℚ))
  let sx : ℚ := xs.sum
  let sxx : ℚ := (xs.map (fun x => x * x)).sum
  let sy : ℚ := ys.sum
  let sxy : ℚ := (ys.enum.map (fun p => (p.1 : ℚ) * p.2)).sum
  let slope : ℚ := (n * sxy - sx * sy) / (n * sxx - sx * sx)
  (slope, (sy - slope * sx) / n)

/-- The rendered trend-line values (lines 153-158): evaluate the fitted
line at each hour 0..23 and clamp each value to a minimum of 0
(`np.maximum(trendline_y, 0)`). -/
def trendValues (events : List Timestamp) : List ℚ :=
  let z := polyfit1 ((histogram events).map (fun c : Nat => (c : ℚ)))
  (List.range 24).map (fun h : Nat => max 0 (z.1 * (h : ℚ) + z.2))

/-- What `plot_sleep_trend` puts on screen: nothing (the early-return
"No sleep data to display." branch), or a bar chart of the 24 hour counts
with an optional overlaid trend line. -/
inductive TrendOutput where
  | noData
  | chart (bars : List Nat) (trendline : Option (List ℚ))
deriving DecidableEq, Repr

/-- `plot_sleep_trend` (lines 113-174): fetch all rows; if there are none,
print "No sleep data to display." and return without plotting.  Otherwise
build the 24-bucket histogram, draw it as bars, and overlay the clamped
trend line only when `len(sleep_counts) >= 2`, i.e. at least two distinct
hours carry events. -/
def plot_sleep_trend (events : List Timestamp) : TrendOutput :=
  if events = [] then .noData
  else .chart (histogram events)
    (if 2 ≤ distinctHours events then some (trendValues events) else none)

instance {ε α : Type} [DecidableEq ε] [DecidableEq α] : DecidableEq (Except ε α) :=
  fun a b =>
    match a, b with
    | .error x, .error y =>
        if h : x = y then .isTrue (by rw [h])
        else .isFalse (by intro he; injection he with he; exact h he)
    | .ok x, .ok y =>
        if h : x = y then .isTrue (by rw [h])
        else .isFalse (by intro he; injection he with he; exact h he)
    | .error _, .ok _ => .isFalse (by intro he; exact Except.noConfusion he)
    | .ok _, .error _ => .isFalse (by intro he; exact Except.noConfusion he)

/-! ## Concrete inputs used by counterexamples and witnesses -/

/-- Ten events: five in hour 0 and five in hour 1 (histogram `[5, 5, 0, ..., 0]`). -/
def ev01 : List Timestamp :=
  [⟨0, 0, 0⟩, ⟨0, 0, 1⟩, ⟨0, 0, 2⟩, ⟨0, 0, 3⟩, ⟨0, 0, 4⟩,
   ⟨0, 1, 0⟩, ⟨0, 1, 1⟩, ⟨0, 1, 2⟩, ⟨0, 1, 3⟩, ⟨0, 1, 4⟩]

/-- Three events, all in hour 3. -/
def ev3 : List Timestamp := [⟨0, 3, 0⟩, ⟨0, 3, 1⟩, ⟨1, 3, 0⟩]

/-- Two events, one in hour 22 and one in hour 23: the least-squares fit over
the 24 buckets slopes upward and is negative near hour 0. -/
def ev2223 : List Timestamp := [⟨0, 22, 0⟩, ⟨0, 23, 0⟩]

def ts2310 : Timestamp := ⟨0, 23, 10⟩

def ts2345 : Timestamp := ⟨0, 23, 45⟩

def ts0700a : Timestamp := ⟨1, 7, 0⟩

def ts0700b : Timestamp := ⟨2, 7, 0⟩

def ts0700c : Timestamp := ⟨3, 7, 0⟩

def ts2300 : Timestamp := ⟨4, 23, 0⟩

/-- The six events the end-to-end sentence enumerates: 23:10, 23:45,
07:00 three times (on distinct days), and 23:00 once. -/
def events6 : List Timestamp := [ts2310, ts2345, ts0700a, ts0700b, ts0700c, ts2300]

/-- Five events matching the sentence's own tally "hour 23 ×2, hour 7 ×3":
23:10, 23:45, and 07:00 three times. -/
def events5 : List Timestamp := [ts2310, ts2345, ts0700a, ts0700b, ts0700c]

/-! ## Helper lemmas about the mode query -/

theorem mem_modeRows {events : List Timestamp} {r : Fin 24 × Nat}
    (hr : r ∈ modeRows events) :
    r.2 = hourCount events r.1 ∧ 1 ≤ r.2 ∧ ∀ h', hourCount events h' ≤ r.2 := by
  rcases List.mem_filterMap.mp hr with ⟨h, -, hf⟩
  by_cases hc : 1 ≤ hourCount events h ∧ ∀ h', hourCount events h' ≤ hourCount events h
  · rw [if_pos hc] at hf
    injection hf with hf
    subst hf
    exact ⟨rfl, hc.1, hc.2⟩
  · rw [if_neg hc] at hf
    exact Option.noConfusion hf

theorem modeShown_mem {events : List Timestamp} {h : Fin 24} {c : Nat}
    (hm : ModeOutput.modeShown h c ∈ most_common_sleep_hour events) :
    (h, c) ∈ modeRows events := by
  unfold most_common_sleep_hour at hm
  by_cases he : modeRows events = []
  · rw [if_pos he] at hm
    simp at hm
  · rw [if_neg he] at hm
    rcases List.mem_map.mp hm with ⟨r, hr, heq⟩
    injection heq with h1 h2
    have : r = (h, c) := Prod.ext h1 h2
    exact this ▸ hr

/-! ## The claims -/

/-- C1. The sentence says the mode query returns the lowest-numbered of the
tied hours, and in particular hour 0 on the histogram `[5, 5, 0, ..., 0]`.
The query `ORDER BY frequency DESC LIMIT 1` has no secondary sort key, so
PostgreSQL does not determine which of the tied rows comes first: on `ev01`
(five events each in hours 0 and 1) the panel showing hour 1 is a possible
outcome, and it differs from the panel showing hour 0. -/
theorem C1_counterexample :
    ModeOutput.modeShown 1 5 ∈ most_common_sleep_hour ev01
    ∧ ModeOutput.modeShown 0 5 ∈ most_common_sleep_hour ev01
    ∧ ModeOutput.modeShown 1 5 ≠ ModeOutput.modeShown 0 5 := by decide

/-- C1 (amended). Every possible result of `most_common_sleep_hour` shows an
hour whose count is maximal (with its true count, which is positive); when
several hours are tied the lowest-numbered hour is among the possible
results, but the code leaves the choice among tied hours to the database's
unspecified sort order. -/
theorem C1_mode_attains_max (events : List Timestamp) (h : Fin 24) (c : Nat)
    (hm : ModeOutput.modeShown h c ∈ most_common_sleep_hour events) :
    c = hourCount events h ∧ 1 ≤ c ∧ ∀ h', hourCount events h' ≤ c :=
  mem_modeRows (modeShown_mem hm)

/-- C1 witness: on `ev01` the theorem applies to the possible result
`modeShown 0 5`. -/
theorem C1_witness :
    5 = hourCount ev01 0 ∧ 1 ≤ 5 ∧ ∀ h', hourCount ev01 h' ≤ 5 :=
  C1_mode_attains_max ev01 0 5 (by decide)

/-- C5. When the table is empty the grouped query returns no row, `fetchone`
yields `None`, and the code takes the distinct "No sleep records found"
branch; a shown mode always carries a count of at least 1, so the no-data
panel is never confused with a genuine mode at hour 0. -/
theorem C5_no_records (events : List Timestamp) :
    (events = [] → most_common_sleep_hour events = [ModeOutput.noRecords])
    ∧ (∀ (h : Fin 24) (c : Nat),
        ModeOutput.modeShown h c ∈ most_common_sleep_hour events → 1 ≤ c)
    ∧ renderMode ModeOutput.noRecords = "No sleep records found"
    ∧ (∀ c : Nat, ModeOutput.noRecords ≠ ModeOutput.modeShown 0 c) := by
  refine ⟨?_, ?_, rfl, fun c he => ModeOutput.noConfusion he⟩
  · rintro rfl
    decide
  · intro h c hm
    exact (mem_modeRows (modeShown_mem hm)).2.1

/-- C5 witness: the empty store takes the no-records branch, and the shown
mode on `ev01` has a positive count. -/
theorem C5_witness :
    most_common_sleep_hour [] = [ModeOutput.noRecords] ∧ (1 : Nat) ≤ 5 :=
  ⟨(C5_no_records []).1 rfl, (C5_no_records ev01).2.1 1 5 (by decide)⟩

/-- C3. For every input sequence of timestamps the hour aggregation of
`plot_sleep_trend` yields a histogram of exactly 24 entries indexed 0..23,
every entry is a count (hence nonnegative), an hour with no events has
entry 0, and the entries sum to the number of input timestamps. -/
theorem C3_histogram_invariants (events : List Timestamp) :
    (histogram events).length = 24
    ∧ (∀ v ∈ histogram events, 0 ≤ v)
    ∧ (∀ h : Fin 24, (histogram events)[h.val]? = some (hourCount events h))
    ∧ (∀ h : Fin 24, (∀ e ∈ events, e.hour ≠ h) → hourCount events h = 0)
    ∧ (histogram events).sum = events.length := by
  refine ⟨histogram_length events, fun v _ => Nat.zero_le v,
    fun h => histogram_getElem events h, ?_, histogram_sum events⟩
  intro h hne
  rw [hourCount, List.countP_eq_zero]
  intro e he
  simpa using hne e he

/-- C3 witness: on `ev01` (ten events) hour 5 is empty so its bucket is 0,
and the 24 buckets sum to 10. -/
theorem C3_witness :
    hourCount ev01 5 = 0 ∧ (histogram ev01).sum = 10 :=
  ⟨(C3_histogram_invariants ev01).2.2.2.1 5 (by decide),
   by rw [(C3_histogram_invariants ev01).2.2.2.2]; decide⟩

/-- C7. The hour aggregation is order-independent: permuting the input
sequence of timestamps yields an identical 24-entry histogram. -/
theorem C7_histogram_perm_invariant (l l' : List Timestamp) (hp : l.Perm l') :
    histogram l = histogram l' := by
  unfold histogram hourCount
  exact List.map_congr_left (fun h _ => hp.countP_eq _)

/-- C7 witness: swapping two concrete events leaves the histogram unchanged. -/
theorem C7_witness :
    histogram [ts2310, ts0700a] = histogram [ts0700a, ts2310] :=
  C7_histogram_perm_invariant [ts2310, ts0700a] [ts0700a, ts2310] (by decide)

/-- C6. On an empty store `plot_sleep_trend` takes the early-return
"No sleep data to display." branch: its outcome is the `noData` value, not a
chart of any kind, and the embedded function is total, so no exception
arises on this path. -/
theorem C6_empty_trend_no_data :
    plot_sleep_trend [] = TrendOutput.noData
    ∧ plot_sleep_trend [] ≠ TrendOutput.chart (histogram []) none
    ∧ plot_sleep_trend [] ≠ TrendOutput.chart (histogram []) (some (trendValues [])) := by
  refine ⟨rfl, fun he => ?_, fun he => ?_⟩
  · rw [show plot_sleep_trend [] = TrendOutput.noData from rfl] at he
    exact TrendOutput.noConfusion he
  · rw [show plot_sleep_trend [] = TrendOutput.noData from rfl] at he
    exact TrendOutput.noConfusion he

/-- C2. The sentence asserts the trend line is rendered iff at least two
distinct hours carry events, and that for inputs whose events all fall in a
single hour *(or none)* the bar histogram is still produced without a trend
line.  The empty input refutes the parenthetical: `plot_sleep_trend` then
returns through the early no-data branch and draws no bar chart at all. -/
theorem C2_counterexample :
    distinctHours [] ≤ 1
    ∧ plot_sleep_trend [] = TrendOutput.noData
    ∧ plot_sleep_trend [] ≠ TrendOutput.chart (histogram []) none := by
  refine ⟨by decide, rfl, fun he => ?_⟩
  rw [show plot_sleep_trend [] = TrendOutput.noData from rfl] at he
  exact TrendOutput.noConfusion he

/-- C2 (amended). For every nonempty input, a trend line is computed and
rendered iff at least two distinct hours carry events, and when at most one
hour carries events the bar histogram is still produced with the trend line
omitted; the empty input instead takes the no-data branch and produces no
chart. -/
theorem C2_trend_policy (events : List Timestamp) (hne : events ≠ []) :
    ((∃ bars t, plot_sleep_trend events = TrendOutput.chart bars (some t))
      ↔ 2 ≤ distinctHours events)
    ∧ (distinctHours events ≤ 1 →
        plot_sleep_trend events = TrendOutput.chart (histogram events) none) := by
  constructor
  · constructor
    · rintro ⟨bars, t, hp⟩
      by_contra hlt
      simp [plot_sleep_trend, hne, hlt] at hp
    · intro h2
      exact ⟨histogram events, trendValues events, by simp [plot_sleep_trend, hne, h2]⟩
  · intro h1
    have hlt : ¬ 2 ≤ distinctHours events := by omega
    simp [plot_sleep_trend, hne, hlt]

/-- C2 witness: three events all in hour 3 produce the bar chart with the
trend line omitted. -/
theorem C2_witness :
    plot_sleep_trend ev3 = TrendOutput.chart (histogram ev3) none :=
  (C2_trend_policy ev3 (by decide)).2 (by decide)

theorem trendValues_length (events : List Timestamp) :
    (trendValues events).length = 24 := by
  simp [trendValues]

theorem trendValues_getElem (events : List Timestamp) (h : Fin 24) :
    (trendValues events)[h.val]? = some (max 0
      ((polyfit1 ((histogram events).map (fun c : Nat => (c : ℚ)))).1 * (h.val : ℚ)
       + (polyfit1 ((histogram events).map (fun c : Nat => (c : ℚ)))).2)) := by
  simp [trendValues, List.getElem?_map, List.getElem?_range h.isLt]

theorem trendValues_nonneg (events : List Timestamp) :
    ∀ v ∈ trendValues events, 0 ≤ v := by
  intro v hv
  simp only [trendValues] at hv
  rcases List.mem_map.mp hv with ⟨i, -, rfl⟩
  exact le_max_left _ _

/-- C4. Whenever `plot_sleep_trend` renders a trend line, the rendered list
is exactly the fitted line evaluated at the 24 hour values 0..23 with each
value clamped below at 0, so no rendered trend value is negative. -/
theorem C4_trend_clamped (events : List Timestamp) (bars : List Nat) (t : List ℚ)
    (hp : plot_sleep_trend events = TrendOutput.chart bars (some t)) :
    t = trendValues events
    ∧ t.length = 24
    ∧ (∀ h : Fin 24, t[h.val]? = some (max 0
        ((polyfit1 ((histogram events).map (fun c : Nat => (c : ℚ)))).1 * (h.val : ℚ)
         + (polyfit1 ((histogram events).map (fun c : Nat => (c : ℚ)))).2)))
    ∧ ∀ v ∈ t, 0 ≤ v := by
  have ht : t = trendValues events := by
    by_cases hne : events = []
    · simp [plot_sleep_trend, hne] at hp
    · by_cases h2 : 2 ≤ distinctHours events
      · simp [plot_sleep_trend, hne, h2] at hp
        exact hp.2.symm
      · simp [plot_sleep_trend, hne, h2] at hp
  subst ht
  exact ⟨rfl, trendValues_length events, trendValues_getElem events,
    trendValues_nonneg events⟩

/-- C4 witness: two events in hours 22 and 23 produce a rendered trend line
whose 24 values are all nonnegative even though the unclamped fit is
negative at hour 0 (its intercept is negative). -/
theorem C4_witness :
    plot_sleep_trend ev2223
      = TrendOutput.chart (histogram ev2223) (some (trendValues ev2223))
    ∧ (∀ v ∈ trendValues ev2223, 0 ≤ v)
    ∧ (polyfit1 ((histogram ev2223).map (fun c : Nat => (c : ℚ)))).2 < 0 := by
  have h2 : distinctHours ev2223 = 2 := by decide
  have hp : plot_sleep_trend ev2223
      = TrendOutput.chart (histogram ev2223) (some (trendValues ev2223)) := by
    simp [plot_sleep_trend, h2]
    decide
  refine ⟨hp,
    (C4_trend_clamped ev2223 (histogram ev2223) (trendValues ev2223) hp).2.2.2, ?_⟩
  have hy : (histogram ev2223).map (fun c : Nat => (c : ℚ))
      = [0, 0, 0, 0, 0, 0, 0, 0, 0, 0, 0, 0, 0, 0, 0, 0, 0, 0, 0, 0, 0, 0, 1, 1] := by
    have hh : histogram ev2223
        = [0, 0, 0, 0, 0, 0, 0, 0, 0, 0, 0, 0, 0, 0, 0, 0, 0, 0, 0, 0, 0, 0, 1, 1] := by
      decide
    rw [hh]
    norm_num
  rw [hy]
  simp [polyfit1, List.range_succ, List.enum]
  norm_num

/-- C8. The sentence gives the store write the signature
`insert_event(timestamp)` and says it records exactly the caller-supplied
timestamp.  In the code the method `take_sleep_timestamp` has no
caller-facing parameter: the recorded value is `datetime.now()` (the ambient
clock `now` of the embedding), so it is false that for every target
timestamp `t` the call stores `t`. -/
theorem C8_counterexample :
    ¬ ∀ (t now : Timestamp) (db : List Timestamp),
        take_sleep_timestamp now db = Except.ok (db ++ [t]) := by
  intro hall
  exact absurd (hall ⟨0, 5, 0⟩ ⟨0, 6, 0⟩ []) (by decide)

/-- C8 (amended). The store write takes no caller-supplied timestamp: each
successful call records exactly the current clock value `datetime.now()`,
appended to the stored events. -/
theorem C8_records_clock_time (now : Timestamp) (db : List Timestamp)
    (h : now ∉ db) :
    take_sleep_timestamp now db = Except.ok (db ++ [now]) := by
  simp [take_sleep_timestamp, h]

/-- C8 witness: a concrete call at clock value 23:10 on an empty store
records 23:10. -/
theorem C8_witness :
    take_sleep_timestamp ts2310 [] = Except.ok [ts2310] :=
  C8_records_clock_time ts2310 [] (by decide)

/-- C9. The end-to-end sentence enumerates the inserts 23:10, 23:45, 07:00
three times and 23:00 once, yet asserts counts[23] = 2 and a total of 5.
On the enumerated six events the code yields counts[23] = 3 and total 6, and
the mode query is a tie between hours 7 and 23 (both possible outcomes), so
the sentence's stated outcome is false for its own input list. -/
theorem C9_counterexample :
    insertAll events6 [] = Except.ok events6
    ∧ (histogram events6)[23]? = some 3
    ∧ (histogram events6).sum = 6
    ∧ ModeOutput.modeShown 23 3 ∈ most_common_sleep_hour events6
    ∧ ModeOutput.modeShown 7 3 ∈ most_common_sleep_hour events6 := by decide

/-- C9 (amended). On the five events matching the sentence's own tally
(hour 23 twice, hour 7 three times: 23:10, 23:45 and 07:00 on three days),
inserting them all succeeds, the mode query's only possible outcome is
hour 7 with count 3, and the histogram has counts[7] = 3, counts[23] = 2,
all other hours 0, and total sum 5. -/
theorem C9_end_to_end :
    insertAll events5 [] = Except.ok events5
    ∧ most_common_sleep_hour events5 = [ModeOutput.modeShown 7 3]
    ∧ (histogram events5)[7]? = some 3
    ∧ (histogram events5)[23]? = some 2
    ∧ (∀ h : Fin 24, h ≠ 7 → h ≠ 23 → hourCount events5 h = 0)
    ∧ (histogram events5).sum = 5 := by decide

/-- C9 witness: the amended theorem at hour 0, an hour with no events. -/
theorem C9_witness : hourCount events5 0 = 0 :=
  C9_end_to_end.2.2.2.2.1 0 (by decide) (by decide)

theorem except_error_bind {ε α β : Type} (e : ε) (f : α → Except ε β) :
    (Except.error e >>= f) = Except.error e := rfl

theorem except_ok_bind {ε α β : Type} (a : α) (f : α → Except ε β) :
    (Except.ok a >>= f : Except ε β) = f a := rfl

theorem insertAll_nodup :
    ∀ (nows db db' : List Timestamp),
      db.Nodup → insertAll nows db = Except.ok db' → db'.Nodup := by
  intro nows
  induction nows with
  | nil =>
      intro db db' hnd h
      simp only [insertAll, List.foldlM_nil] at h
      injection h with h
      exact h ▸ hnd
  | cons t ts ih =>
      intro db db' hnd h
      simp only [insertAll, List.foldlM_cons] at h
      by_cases hm : t ∈ db
      · rw [show take_sleep_timestamp t db = Except.error InsertError.uniqueViolation from by
          simp [take_sleep_timestamp, hm], except_error_bind] at h
        exact Except.noConfusion h
      · rw [show take_sleep_timestamp t db = Except.ok (db ++ [t]) from by
          simp [take_sleep_timestamp, hm], except_ok_bind] at h
        have hnd' : (db ++ [t]).Nodup := by
          refine List.Nodup.append hnd (List.nodup_singleton t) ?_
          intro a ha hb
          rw [List.mem_singleton] at hb
          exact hm (hb ▸ ha)
        exact ih (db ++ [t]) db' hnd' h

/-- C10. The `driver_asleep` column is the table's `PRIMARY KEY`: inserting
a timestamp equal to one already stored raises a unique violation (the
failed statement yields no new store, so the store is unchanged), a
successful insert into a duplicate-free store keeps it duplicate-free, and
any store reached by inserts from the empty table has pairwise-distinct
timestamps. -/
theorem C10_primary_key (t : Timestamp) (db : List Timestamp) :
    (t ∈ db → take_sleep_timestamp t db = Except.error InsertError.uniqueViolation)
    ∧ (∀ db', take_sleep_timestamp t db = Except.ok db' → db.Nodup → db'.Nodup)
    ∧ (∀ (nows db' : List Timestamp),
        insertAll nows [] = Except.ok db' → db'.Nodup) := by
  refine ⟨?_, ?_, fun nows db' h => insertAll_nodup nows [] db' List.nodup_nil h⟩
  · intro hm
    simp [take_sleep_timestamp, hm]
  · intro db' hok hnd
    by_cases hm : t ∈ db
    · simp [take_sleep_timestamp, hm] at hok
    · simp [take_sleep_timestamp, hm] at hok
      rw [← hok]
      refine List.Nodup.append hnd (List.nodup_singleton t) ?_
      intro a ha hb
      rw [List.mem_singleton] at hb
      exact hm (hb ▸ ha)

/-- C10 witness: re-inserting 23:10 into a store already holding it raises
the unique violation, and a successful insert keeps the store
duplicate-free. -/
theorem C10_witness :
    take_sleep_timestamp ts2310 [ts2310] = Except.error InsertError.uniqueViolation
    ∧ List.Nodup [ts2345] :=
  ⟨(C10_primary_key ts2310 [ts2310]).1 (by decide),
   (C10_primary_key ts2345 []).2.1 [ts2345] (by decide) (by decide)⟩

end DriveGuard
